import Mathlib

/-!
Verification of the Siril Galaxy Annotations script
(`Galaxy_Annotations_102gk2_2.py`, version 1.0.2-gk.2.2).

The pipeline logic of `annotate_fit` and its helpers is embedded shallowly:
pixel coordinates are rationals, Python float NaN/Inf are modelled by an
explicit value type where finiteness matters, Python's `round` (banker's
rounding) is `pyRound`, and pandas row sets are Lean lists processed in order.
-/

namespace GalaxyAnnotations

/-- Python's built-in `round` on a rational: round half to even
("banker's rounding"), as used by `int(round(...))` in the script. -/
def pyRound (q : ℚ) : ℤ :=
  if q - ⌊q⌋ < 1/2 then ⌊q⌋
  else if q - ⌊q⌋ > 1/2 then ⌊q⌋ + 1
  else if 2 ∣ ⌊q⌋ then ⌊q⌋ else ⌊q⌋ + 1

/-- `min_patch_size = int(round(max(W, H) / 100))` (annotate_fit, line 154). -/
def min_patch_size (W H : ℕ) : ℤ := pyRound ((max W H : ℚ) / 100)

/-- One catalog row after the projection step: identifier, catalog code
(`TYPE`), angular major axis in arcmin (`none` models pandas NaN), and the
rounded integer pixel coordinates `px = int(round(x))`, `py = int(round(y))`
(annotate_fit, lines 259-260). -/
structure PixRow where
  main_id : String
  TYPE : String
  galdim_majaxis : Option ℚ
  px : ℤ
  py : ℤ
deriving DecidableEq, Repr

/-- The bounds filter
`df[(df.px > min_patch_size) & (df.py > min_patch_size)
  & (df.px < W - min_patch_size) & (df.py < H - min_patch_size)]`
(annotate_fit, lines 263-264). -/
def boundsFilter (W H : ℕ) (rows : List PixRow) : List PixRow :=
  rows.filter (fun r =>
    decide (min_patch_size W H < r.px) && decide (min_patch_size W H < r.py)
    && decide (r.px < (W : ℤ) - min_patch_size W H)
    && decide (r.py < (H : ℤ) - min_patch_size W H))

/-- Deduplication key of `drop_duplicates(subset=['px', 'py'])`:
the rounded pixel position `(round(pixel_x), round(pixel_y))`. -/
def dedupKey (r : PixRow) : ℤ × ℤ := (r.px, r.py)

/-- Helper for `drop_duplicates`: walk the rows in order, keeping a row only
when its `(px, py)` key has not been seen before. -/
def dropDupAux (seen : List (ℤ × ℤ)) : List PixRow → List PixRow
  | [] => []
  | r :: rest =>
    if dedupKey r ∈ seen then dropDupAux seen rest
    else r :: dropDupAux (dedupKey r :: seen) rest

/-- `dfi.drop_duplicates(subset=['px', 'py'])` (annotate_fit, line 286):
keep the first row for each distinct rounded pixel position. -/
def drop_duplicates (rows : List PixRow) : List PixRow := dropDupAux [] rows

/-- A Python float as handed back by the projector: a finite value
(modelled as an exact rational) or a non-finite IEEE value. -/
inductive PyFloat where
  | fin (q : ℚ)
  | nan
  | inf
  | neginf
deriving DecidableEq, Repr

/-- `np.isfinite` on a projector result component. -/
def PyFloat.isfinite : PyFloat → Bool
  | .fin _ => true
  | _ => false

/-- The rational carried by a finite `PyFloat` (junk value 0 otherwise; the
pipeline only reads this after the finiteness filter). -/
def PyFloat.toRat : PyFloat → ℚ
  | .fin q => q
  | _ => 0

/-- A catalog row before projection: identifier, catalog code, angular major
axis in arcmin (`none` = NaN), and sky position in degrees. -/
structure Row where
  main_id : String
  TYPE : String
  galdim_majaxis : Option ℚ
  ra : ℚ
  dec : ℚ
deriving DecidableEq, Repr

/-- A diagnostic entry of `wcs_error_entries`:
`(main_id, ra, dec, error message)`. -/
abbrev WcsErrorEntry := String × ℚ × ℚ × String

/-- `safe_radec2pix(row)` (annotate_fit, lines 243-251): call the projector;
if it raises, or either returned coordinate is non-finite, append a
diagnostic entry and yield `(nan, nan)`; otherwise yield the pixel pair.
The projector `radec2pix` returns `.error e` when `siril.radec2pix` raises
with message `e`. -/
def safe_radec2pix (radec2pix : ℚ → ℚ → Except String (PyFloat × PyFloat))
    (errs : List WcsErrorEntry) (row : Row) :
    (PyFloat × PyFloat) × List WcsErrorEntry :=
  match radec2pix row.ra row.dec with
  | .ok (x, y) =>
      if x.isfinite && y.isfinite then ((x, y), errs)
      else ((.nan, .nan), errs ++ [(row.main_id, row.ra, row.dec,
        "radec2pix returned non-finite values")])
  | .error e => ((.nan, .nan), errs ++ [(row.main_id, row.ra, row.dec, e)])

/-- `df['Pixel_Position'] = df.apply(safe_radec2pix, axis=1)` (line 253):
each row in order gets its pixel position, diagnostics accumulate in row
order. Total: a projector failure never aborts the traversal. -/
def applyPixelPosition
    (radec2pix : ℚ → ℚ → Except String (PyFloat × PyFloat)) :
    List Row → List (Row × (PyFloat × PyFloat)) × List WcsErrorEntry
  | [] => ([], [])
  | r :: rest =>
    let head := safe_radec2pix radec2pix [] r
    let tail := applyPixelPosition radec2pix rest
    ((r, head.1) :: tail.1, head.2 ++ tail.2)

/-- `df = df[df['Pixel_Position'].apply(lambda x: np.isfinite(x[0]) and
np.isfinite(x[1]))]` (line 256): drop rows whose pixel position is not
finite in both coordinates. -/
def filterFinite (l : List (Row × (PyFloat × PyFloat))) :
    List (Row × (PyFloat × PyFloat)) :=
  l.filter (fun rp => rp.2.1.isfinite && rp.2.2.isfinite)

/-- Result of the type-dependent style block of the main loop: font size,
whether the color was overridden to white (main object), and the possibly
overridden patch size and patch diameter. -/
structure StyleResult where
  fontsize : ℕ
  mainObjectWhite : Bool
  patch_size : ℤ
  patch_diameter_pix : ℚ
deriving DecidableEq, Repr

/-- The `if/elif` chain of annotate_fit, lines 387-409, applied to one row
after the geometric patch-size computation. The first branch (row is the
run's main object) only restyles; the last `elif` applies the LEDA
large-size override, forcing `patch_size = patch_diameter_pix =
min_patch_size` when `galdim_majaxis` is not NaN and exceeds 1.8. -/
def applyTypeStyle (main_object : String) (min_patch : ℤ) (row : PixRow)
    (patch_size : ℤ) (patch_diameter_pix : ℚ) : StyleResult :=
  if row.main_id = main_object then
    ⟨20, true, patch_size, patch_diameter_pix⟩
  else if row.TYPE = "M" then ⟨18, false, patch_size, patch_diameter_pix⟩
  else if row.TYPE = "NGC" then ⟨18, false, patch_size, patch_diameter_pix⟩
  else if row.TYPE = "SAI" then ⟨16, false, patch_size, patch_diameter_pix⟩
  else if row.TYPE = "UGC" then ⟨16, false, patch_size, patch_diameter_pix⟩
  else if row.TYPE = "MCG" then ⟨16, false, patch_size, patch_diameter_pix⟩
  else if row.TYPE = "IC" then ⟨16, false, patch_size, patch_diameter_pix⟩
  else if row.TYPE = "LEDA" then
    match row.galdim_majaxis with
    | some a =>
        if a > 1.8 then ⟨12, false, min_patch, (min_patch : ℚ)⟩
        else ⟨12, false, patch_size, patch_diameter_pix⟩
    | none => ⟨12, false, patch_size, patch_diameter_pix⟩
  else ⟨12, false, patch_size, patch_diameter_pix⟩

/-- `mincols = 6 if (logo_path != "") else 5` (line 476). -/
def grid_mincols (logo_path : String) : ℕ := if logo_path ≠ "" then 6 else 5

/-- `ncols = max(mincols, int(np.floor(np.sqrt(n))))` (line 477);
`Nat.sqrt` is the floor of the square root on naturals. -/
def grid_ncols (n : ℕ) (logo_path : String) : ℕ :=
  max (grid_mincols logo_path) (Nat.sqrt n)

/-- `nrows = int(np.ceil(n / ncols))` (line 478). -/
def grid_nrows (n : ℕ) (logo_path : String) : ℤ :=
  ⌈(n : ℚ) / (grid_ncols n logo_path : ℚ)⌉

/-- Python `str.strip()`: remove leading and trailing whitespace. -/
def strip (s : String) : String :=
  String.mk (((s.data.dropWhile (fun c => c.isWhitespace)).reverse.dropWhile
    (fun c => c.isWhitespace)).reverse)

/-- The four values returned by `load_config_file`. -/
structure ConfigResult where
  logo_path : Option String
  overlay_alpha : ℚ
  overlay_type : String
  selected_catalogs : Option String
deriving DecidableEq, Repr

/-- `load_config_file` (lines 1052-1076). `lines? = none` models a missing
config file, otherwise the list of lines read from it; `isfile` models
`os.path.isfile`; `parseFloat` models a successful `float(...)` parse;
`strip` models `str.strip`. Note the source reads `lines[2]` both for
`overlay_type` (line 1073) and, when a fourth line exists, for
`selected_catalogs` (line 1075). -/
def load_config_file (isfile : String → Bool) (parseFloat : String → ℚ)
    (lines? : Option (List String)) : ConfigResult :=
  match lines? with
  | none => ⟨none, 3/5, "circle", none⟩
  | some lines =>
    let logo_path : Option String :=
      if lines.length > 0 then
        let lp := strip (lines.getD 0 "")
        if isfile lp then some lp else none
      else none
    let overlay_alpha : ℚ :=
      if lines.length > 1 then parseFloat (strip (lines.getD 1 "")) else 3/5
    let overlay_type : String :=
      if lines.length > 2 then strip (lines.getD 2 "") else "circle"
    let selected_catalogs : Option String :=
      if lines.length > 3 then some (strip (lines.getD 2 "")) else none
    ⟨logo_path, overlay_alpha, overlay_type, selected_catalogs⟩

/-- The three image artifacts annotate_fit writes, in write order. -/
inductive OutputFile where
  | overlay
  | table
  | combined
deriving DecidableEq, Repr

/-- The row set that reaches rendering (annotate_fit, lines 230-287):
concatenate the source frames, project with `safe_radec2pix`, drop
non-finite positions, round to integer pixels, bounds-filter, keep enabled
catalog types, deduplicate on rounded pixel position. -/
def surviving_rows (radec2pix : ℚ → ℚ → Except String (PyFloat × PyFloat))
    (W H : ℕ) (filter_types : List String) (df_list : List (List Row)) :
    List PixRow :=
  let df := df_list.flatten
  let projected := filterFinite (applyPixelPosition radec2pix df).1
  let pixrows := projected.map (fun rp =>
    PixRow.mk rp.1.main_id rp.1.TYPE rp.1.galdim_majaxis
      (pyRound rp.2.1.toRat) (pyRound rp.2.2.toRat))
  let bounded := boundsFilter W H pixrows
  let typed := bounded.filter (fun r => filter_types.contains r.TYPE)
  drop_duplicates typed

/-- The control-flow skeleton of annotate_fit: `if not df_list: return 0`
(lines 226-228), `if dfi.shape[0] == 0: return 0` (lines 289-291), otherwise
the three output images are saved (lines 458, 524, 536) and the surviving
row count is returned (line 544). Total: the empty outcome is a normal
return value, not an exception. -/
def annotate_fit (radec2pix : ℚ → ℚ → Except String (PyFloat × PyFloat))
    (W H : ℕ) (filter_types : List String) (df_list : List (List Row)) :
    ℕ × List OutputFile :=
  if df_list = [] then (0, [])
  else
    let dfi := surviving_rows radec2pix W H filter_types df_list
    if dfi = [] then (0, [])
    else (dfi.length, [.overlay, .table, .combined])

/-- `CatalogEntry.__init__` state (lines 571-576): `checkbox_var` is `None`
until `create_widgets` installs a GUI variable; in CLI mode it stays `None`. -/
structure CatalogEntry where
  description : Option String
  color : String
  selection_default : Bool
  checkbox_var : Option Bool
deriving DecidableEq, Repr

/-- `CatalogEntry.get_selected` (lines 578-582). -/
def CatalogEntry.get_selected (e : CatalogEntry) : Bool :=
  match e.checkbox_var with
  | none => e.selection_default
  | some b => b

/-- The catalog registry built in `AnnotationsScriptInterface.__init__`
(lines 601-621), in dict insertion order, with `checkbox_var = None` as
constructed (no GUI widget yet). -/
def init_catalogs : List (String × CatalogEntry) :=
  [("M", ⟨some "Messier Catalog", "#80ff80", true, none⟩),
   ("IC", ⟨some "Index Catalogue", "#80ffff", true, none⟩),
   ("NGC", ⟨some "New General Catalogue", "#ffffff", true, none⟩),
   ("MGC", ⟨some "Millennium Galaxy Catalogue", "#30a500", false, none⟩),
   ("UGC", ⟨some "Uppsala General Catalogue", "#3abed1", false, none⟩),
   ("MCG", ⟨some "Morphological Catalogue of Galaxies", "#955ec2", false, none⟩),
   ("Mrk", ⟨some "Markarian galaxies", "#fbbd70", false, none⟩),
   ("LEDA", ⟨some "Lyon-Meudon Extragalactic Database", "#c29d94", false, none⟩),
   ("Z", ⟨some "Zwicky Catalogue of galaxies and of clusters of galaxies", "#fb9795", false, none⟩),
   ("Gaia", ⟨some "Gaia catalogues", "#c6aed8", false, none⟩),
   ("2MASX", ⟨some "Two Micron All Sky Survey, Extended source catalogue", "#895447", false, none⟩),
   ("SDSS", ⟨some "Sloan Digital Sky Survey", "#b2c5eb", false, none⟩),
   ("SDSSCGB", ⟨some "SDSS DR6 Compact Group Catalogue B", "#b2c5eb", false, none⟩),
   ("UGCA", ⟨some "Uppsala Selected non-UGC Galaxies", "#f5b3d3", false, none⟩),
   ("MASS", ⟨none, "#c8c8c8", false, none⟩),
   ("MFGC", ⟨none, "#b9c200", false, none⟩),
   ("2MFGC", ⟨some "2MASS Flat Galaxy Catalog", "#d9df85", false, none⟩),
   ("FIRST", ⟨some "FIRST Survey Catalogs", "#a3dae7", false, none⟩),
   ("2MASS", ⟨some "Two Micron All Sky Survey", "#895447", false, none⟩)]

/-- `minsize_pixels = 5` (line 153). -/
def minsize_pixels : ℕ := 5

/-- `math.hypot` over exact reals. -/
noncomputable def hypotR (dx dy : ℝ) : ℝ := Real.sqrt (dx ^ 2 + dy ^ 2)

/-- Python's `round` (half to even) over exact reals, for the real-valued
patch geometry. -/
noncomputable def pyRoundR (x : ℝ) : ℤ :=
  if x - ⌊x⌋ < 1/2 then ⌊x⌋
  else if x - ⌊x⌋ > 1/2 then ⌊x⌋ + 1
  else if 2 ∣ ⌊x⌋ then ⌊x⌋ else ⌊x⌋ + 1

/-- The geometric patch-size computation of annotate_fit, lines 356-379, for
a row at `(ra, dec)` with angular size `angular_size` (arcmin): convert half
the size to degrees, offset the center along ±DEC and ±RA, project the four
points, average the two pair distances into `patch_diameter_pix`, and take
`patch_size = max(min_patch_size, round(patch_diameter_pix * 2))`
(`size_factor = 2`, line 334). The projector is modelled exact and total
here; its exception path falls back to `min_patch_size` and is covered by
C1's model. Returns `(patch_size, patch_diameter_pix)` before edge-clipping. -/
noncomputable def patchSizeGeom (radec2pix : ℝ → ℝ → ℝ × ℝ) (min_patch : ℤ)
    (ra dec angular_size : ℝ) : ℤ × ℝ :=
  let half_diam_deg := (angular_size / 2) / 60
  let ptop := radec2pix ra (dec + half_diam_deg)
  let pbottom := radec2pix ra (dec - half_diam_deg)
  let pleft := radec2pix (ra - half_diam_deg) dec
  let pright := radec2pix (ra + half_diam_deg) dec
  let d_dec := hypotR (ptop.1 - pbottom.1) (ptop.2 - pbottom.2)
  let d_ra := hypotR (pright.1 - pleft.1) (pright.2 - pleft.2)
  let patch_diameter_pix := (d_dec + d_ra) / 2
  (max min_patch (pyRoundR (patch_diameter_pix * 2)), patch_diameter_pix)

/-- A projector with fixed pixel scale: sky-to-pixel is an affine map of
the (ra, dec) coordinates, so pixel offsets scale linearly with angular
offsets. -/
def IsAffineProjector (f : ℝ → ℝ → ℝ × ℝ)
    (a11 a12 a21 a22 b1 b2 : ℝ) : Prop :=
  ∀ ra dec, f ra dec =
    (a11 * ra + a12 * dec + b1, a21 * ra + a22 * dec + b2)

/-- The remote-query threshold computation (annotate_fit, lines 200-204):
`pixsize_arcmin = 60 * max(|pixsize_ra - TL_ra|, |pixsize_dec - TL_dec|)`
and `minsize_arcmin = minsize_pixels * pixsize_arcmin`, where `(TL_ra,
TL_dec) = pix2radec(0, 0)` and `(pixsize_ra, pixsize_dec) = pix2radec(1, 1)`. -/
noncomputable def minsize_arcmin (TL_ra TL_dec pixsize_ra pixsize_dec : ℝ) : ℝ :=
  (minsize_pixels : ℝ) * (60 * max |pixsize_ra - TL_ra| |pixsize_dec - TL_dec|)

/-- The claim's reading of the threshold, written from the spec's words:
pixel scale is the angular distance between the sky positions reported for
pixels (0,0) and (1,1) — the flat-sky (small-angle) separation of the two
coordinate pairs — converted to arcminutes, and the threshold is 5 times it. -/
noncomputable def specMinsizeArcmin (TL_ra TL_dec pixsize_ra pixsize_dec : ℝ) : ℝ :=
  (minsize_pixels : ℝ) *
    (60 * Real.sqrt ((pixsize_ra - TL_ra) ^ 2 + (pixsize_dec - TL_dec) ^ 2))

lemma dropDupAux_subset (seen : List (ℤ × ℤ)) (l : List PixRow) :
    ∀ r ∈ dropDupAux seen l, r ∈ l := by
  induction l generalizing seen with
  | nil => simp [dropDupAux]
  | cons a rest ih =>
    intro r hr
    rw [dropDupAux] at hr
    by_cases hk : dedupKey a ∈ seen
    · simp only [if_pos hk] at hr
      exact List.mem_cons_of_mem _ (ih seen r hr)
    · simp only [if_neg hk, List.mem_cons] at hr
      rcases hr with h | h
      · exact h ▸ List.mem_cons_self _ _
      · exact List.mem_cons_of_mem _ (ih _ r h)

lemma dropDupAux_keys_notin_seen (seen : List (ℤ × ℤ)) (l : List PixRow) :
    ∀ r ∈ dropDupAux seen l, dedupKey r ∉ seen := by
  induction l generalizing seen with
  | nil => simp [dropDupAux]
  | cons a rest ih =>
    intro r hr
    rw [dropDupAux] at hr
    by_cases hk : dedupKey a ∈ seen
    · simp only [if_pos hk] at hr
      exact ih seen r hr
    · simp only [if_neg hk, List.mem_cons] at hr
      rcases hr with h | h
      · exact h ▸ hk
      · intro hs
        exact ih (dedupKey a :: seen) r h (List.mem_cons_of_mem _ hs)

lemma dropDupAux_keys_nodup (seen : List (ℤ × ℤ)) (l : List PixRow) :
    ((dropDupAux seen l).map dedupKey).Nodup := by
  induction l generalizing seen with
  | nil => simp [dropDupAux]
  | cons a rest ih =>
    rw [dropDupAux]
    by_cases hk : dedupKey a ∈ seen
    · simpa [if_pos hk] using ih seen
    · simp only [if_neg hk, List.map_cons, List.nodup_cons]
      refine ⟨?_, ih _⟩
      intro hmem
      rcases List.mem_map.mp hmem with ⟨r, hr, hkey⟩
      exact dropDupAux_keys_notin_seen _ _ r hr (hkey ▸ List.mem_cons_self _ _)

lemma dropDupAux_of_nodup (seen : List (ℤ × ℤ)) (l : List PixRow)
    (hnd : (l.map dedupKey).Nodup) (hs : ∀ r ∈ l, dedupKey r ∉ seen) :
    dropDupAux seen l = l := by
  induction l generalizing seen with
  | nil => simp [dropDupAux]
  | cons a rest ih =>
    rw [dropDupAux, if_neg (hs a (List.mem_cons_self _ _))]
    congr 1
    simp only [List.map_cons, List.nodup_cons] at hnd
    refine ih _ hnd.2 ?_
    intro r hr
    simp only [List.mem_cons]
    push_neg
    refine ⟨?_, hs r (List.mem_cons_of_mem _ hr)⟩
    intro heq
    exact hnd.1 (heq ▸ List.mem_map_of_mem dedupKey hr)

lemma dropDupAux_find? (seen : List (ℤ × ℤ)) (l : List PixRow) (k : ℤ × ℤ)
    (hk : k ∉ seen) :
    (dropDupAux seen l).find? (fun r => decide (dedupKey r = k))
      = l.find? (fun r => decide (dedupKey r = k)) := by
  induction l generalizing seen with
  | nil => simp [dropDupAux]
  | cons a rest ih =>
    rw [dropDupAux]
    by_cases hak : dedupKey a ∈ seen
    · rw [if_pos hak]
      have hne : dedupKey a ≠ k := fun h => hk (h ▸ hak)
      rw [List.find?_cons_of_neg _ (by simpa using hne), ih seen hk]
    · rw [if_neg hak]
      by_cases heq : dedupKey a = k
      · rw [List.find?_cons_of_pos _ (by simpa using heq),
          List.find?_cons_of_pos _ (by simpa using heq)]
      · rw [List.find?_cons_of_neg _ (by simpa using heq),
          List.find?_cons_of_neg _ (by simpa using heq)]
        refine ih _ ?_
        simp only [List.mem_cons]
        push_neg
        exact ⟨fun h => heq h.symm, hk⟩

/-- C3: every row surviving the bounds filter has rounded integer pixel
coordinates with `min_patch_size < px < W - min_patch_size` and
`min_patch_size < py < H - min_patch_size` (strict inequalities), where
`min_patch_size = round(max(W, H) / 100)`. -/
theorem bounds_filter_strict (W H : ℕ) (rows : List PixRow) (r : PixRow)
    (h : r ∈ boundsFilter W H rows) :
    min_patch_size W H < r.px ∧ r.px < (W : ℤ) - min_patch_size W H ∧
    min_patch_size W H < r.py ∧ r.py < (H : ℤ) - min_patch_size W H ∧
    min_patch_size W H = pyRound ((max W H : ℚ) / 100) := by
  have hm := List.mem_filter.mp h
  simp only [Bool.and_eq_true, decide_eq_true_eq] at hm
  exact ⟨hm.2.1.1.1, hm.2.1.2, hm.2.1.1.2, hm.2.2, rfl⟩

theorem bounds_filter_strict_witness :
    min_patch_size 1000 500 < (50 : ℤ) ∧
    (50 : ℤ) < (1000 : ℤ) - min_patch_size 1000 500 ∧
    min_patch_size 1000 500 < (60 : ℤ) ∧
    (60 : ℤ) < (500 : ℤ) - min_patch_size 1000 500 ∧
    min_patch_size 1000 500 = pyRound ((max 1000 500 : ℚ) / 100) :=
  bounds_filter_strict 1000 500 [⟨"M1", "M", none, 50, 60⟩]
    ⟨"M1", "M", none, 50, 60⟩
    (List.mem_filter.mpr ⟨List.mem_cons_self _ _,
      by norm_num [min_patch_size, pyRound]⟩)

/-- C4: `drop_duplicates` keeps, for every key, the first row of the input
with that rounded pixel position (`find?` agrees with the input), leaves at
most one row per distinct key (the mapped key list has no duplicates), keeps
only input rows, and is idempotent. -/
theorem drop_duplicates_spec (rows : List PixRow) :
    (∀ k : ℤ × ℤ,
        (drop_duplicates rows).find? (fun r => decide (dedupKey r = k))
          = rows.find? (fun r => decide (dedupKey r = k))) ∧
    ((drop_duplicates rows).map dedupKey).Nodup ∧
    (∀ r ∈ drop_duplicates rows, r ∈ rows) ∧
    drop_duplicates (drop_duplicates rows) = drop_duplicates rows := by
  refine ⟨fun k => dropDupAux_find? [] rows k (by simp),
    dropDupAux_keys_nodup [] rows, dropDupAux_subset [] rows, ?_⟩
  exact dropDupAux_of_nodup [] _ (dropDupAux_keys_nodup [] rows)
    (fun r _ => by simp)

lemma safe_radec2pix_fail (f : ℚ → ℚ → Except String (PyFloat × PyFloat))
    (errs : List WcsErrorEntry) (row : Row)
    (hfail : (∃ e, f row.ra row.dec = .error e) ∨
      (∃ x y, f row.ra row.dec = .ok (x, y) ∧ (x.isfinite && y.isfinite) = false)) :
    (safe_radec2pix f errs row).1 = (.nan, .nan) ∧
    ∃ m, (safe_radec2pix f errs row).2
      = errs ++ [(row.main_id, row.ra, row.dec, m)] := by
  rcases hfail with ⟨e, he⟩ | ⟨x, y, hok, hfin⟩
  · simp only [safe_radec2pix, he]
    exact ⟨trivial, e, rfl⟩
  · simp only [safe_radec2pix, hok, hfin, Bool.false_eq_true, if_false]
    exact ⟨trivial, _, rfl⟩

lemma mem_applyPixelPosition_pos (f : ℚ → ℚ → Except String (PyFloat × PyFloat))
    (l : List Row) (r : Row) (p : PyFloat × PyFloat)
    (h : (r, p) ∈ (applyPixelPosition f l).1) :
    p = (safe_radec2pix f [] r).1 := by
  induction l with
  | nil => simp [applyPixelPosition] at h
  | cons a rest ih =>
    simp only [applyPixelPosition, List.mem_cons, Prod.mk.injEq] at h
    rcases h with ⟨h1, h2⟩ | h
    · subst h1; exact h2
    · exact ih h

lemma mem_applyPixelPosition_errs (f : ℚ → ℚ → Except String (PyFloat × PyFloat))
    (l : List Row) (row : Row) (hmem : row ∈ l)
    (hfail : (∃ e, f row.ra row.dec = .error e) ∨
      (∃ x y, f row.ra row.dec = .ok (x, y) ∧ (x.isfinite && y.isfinite) = false)) :
    (row.main_id, row.ra, row.dec) ∈
      ((applyPixelPosition f l).2).map (fun d => (d.1, d.2.1, d.2.2.1)) := by
  induction l with
  | nil => simp at hmem
  | cons a rest ih =>
    simp only [applyPixelPosition, List.map_append, List.mem_append]
    rcases List.mem_cons.mp hmem with heq | hmem'
    · left
      subst heq
      obtain ⟨-, m, hm⟩ := safe_radec2pix_fail f [] row hfail
      rw [hm]
      simp
    · right
      exact ih hmem'

/-- C1: for every catalog row on which the projector raises or returns a
non-finite coordinate, the row is excluded from the working set that
survives the finiteness filter, and a diagnostic entry carrying its
identifier and sky position is recorded; the traversal is a total function,
so projection failure never aborts the run. -/
theorem projection_failure_excluded
    (f : ℚ → ℚ → Except String (PyFloat × PyFloat)) (rows : List Row)
    (row : Row) (hmem : row ∈ rows)
    (hfail : (∃ e, f row.ra row.dec = .error e) ∨
      (∃ x y, f row.ra row.dec = .ok (x, y) ∧ (x.isfinite && y.isfinite) = false)) :
    row ∉ (filterFinite (applyPixelPosition f rows).1).map Prod.fst ∧
    (row.main_id, row.ra, row.dec) ∈
      ((applyPixelPosition f rows).2).map (fun d => (d.1, d.2.1, d.2.2.1)) := by
  refine ⟨?_, mem_applyPixelPosition_errs f rows row hmem hfail⟩
  intro hin
  rcases List.mem_map.mp hin with ⟨⟨r, p⟩, hrp, hfst⟩
  cases hfst
  have hfilter := List.mem_filter.mp hrp
  have hpos := mem_applyPixelPosition_pos f rows _ p hfilter.1
  obtain ⟨h1, -⟩ := safe_radec2pix_fail f [] _ hfail
  rw [hpos, h1] at hfilter
  simp [PyFloat.isfinite] at hfilter

theorem projection_failure_excluded_witness :
    (⟨"PGC1", "LEDA", none, 10, 20⟩ : Row) ∉
      (filterFinite (applyPixelPosition (fun _ _ => .ok (.inf, .fin 3))
        [⟨"PGC1", "LEDA", none, 10, 20⟩]).1).map Prod.fst ∧
    ((⟨"PGC1", "LEDA", none, 10, 20⟩ : Row).main_id,
      (⟨"PGC1", "LEDA", none, 10, 20⟩ : Row).ra,
      (⟨"PGC1", "LEDA", none, 10, 20⟩ : Row).dec) ∈
      ((applyPixelPosition (fun _ _ => .ok (.inf, .fin 3))
        [⟨"PGC1", "LEDA", none, 10, 20⟩]).2).map (fun d => (d.1, d.2.1, d.2.2.1)) :=
  projection_failure_excluded (fun _ _ => .ok (.inf, .fin 3))
    [⟨"PGC1", "LEDA", none, 10, 20⟩] ⟨"PGC1", "LEDA", none, 10, 20⟩
    (List.mem_cons_self _ _) (Or.inr ⟨.inf, .fin 3, rfl, rfl⟩)

/-- C2 counterexample: a surviving LEDA row with `galdim_majaxis = 5 > 1.8`
whose identifier equals the run's title (`main_object`) takes the first
branch of the style chain, so the LEDA override is skipped and the patch
size keeps its projected value (here 100, not `min_patch_size = 10`). -/
theorem leda_override_counterexample :
    (⟨"LEDA123", "LEDA", some 5, 300, 300⟩ : PixRow).TYPE = "LEDA" ∧
    (⟨"LEDA123", "LEDA", some 5, 300, 300⟩ : PixRow).galdim_majaxis = some 5 ∧
    (5 : ℚ) > 1.8 ∧
    (applyTypeStyle "LEDA123" 10
      ⟨"LEDA123", "LEDA", some 5, 300, 300⟩ 100 50).patch_size ≠ 10 ∧
    (applyTypeStyle "LEDA123" 10
      ⟨"LEDA123", "LEDA", some 5, 300, 300⟩ 100 50).patch_diameter_pix ≠ 10 := by
  refine ⟨rfl, rfl, by norm_num, ?_, ?_⟩ <;> norm_num [applyTypeStyle]

/-- C2 (amended): for every surviving LEDA row with non-missing
`galdim_majaxis > 1.8` whose identifier is not the run's main object, the
style chain forces `patch_size` and `patch_diameter_pix` to
`min_patch_size`; the main-object branch takes precedence and skips the
override. -/
theorem leda_override (main_object : String) (min_patch patch_size : ℤ)
    (pd : ℚ) (row : PixRow) (a : ℚ)
    (hne : row.main_id ≠ main_object) (ht : row.TYPE = "LEDA")
    (hg : row.galdim_majaxis = some a) (ha : a > 1.8) :
    (applyTypeStyle main_object min_patch row patch_size pd).patch_size
      = min_patch ∧
    (applyTypeStyle main_object min_patch row patch_size pd).patch_diameter_pix
      = (min_patch : ℚ) := by
  simp only [applyTypeStyle, hne, ht, hg, ite_false, ite_true]
  rw [if_neg (by decide : ¬("LEDA" : String) = "M"),
    if_neg (by decide : ¬("LEDA" : String) = "NGC"),
    if_neg (by decide : ¬("LEDA" : String) = "SAI"),
    if_neg (by decide : ¬("LEDA" : String) = "UGC"),
    if_neg (by decide : ¬("LEDA" : String) = "MCG"),
    if_neg (by decide : ¬("LEDA" : String) = "IC"),
    if_pos ha]
  exact ⟨rfl, rfl⟩

theorem leda_override_witness :
    ("PGC99" : String) ≠ "X" ∧
    (applyTypeStyle "X" 10
      ⟨"PGC99", "LEDA", some 5, 300, 300⟩ 100 50).patch_size = 10 ∧
    (applyTypeStyle "X" 10
      ⟨"PGC99", "LEDA", some 5, 300, 300⟩ 100 50).patch_diameter_pix = (10 : ℚ) :=
  ⟨by decide, leda_override "X" 10 100 50
    ⟨"PGC99", "LEDA", some 5, 300, 300⟩ 5 (by decide) rfl rfl (by norm_num)⟩

lemma floor_le_pyRoundR (x : ℝ) : ⌊x⌋ ≤ pyRoundR x := by
  unfold pyRoundR; split_ifs <;> omega

lemma pyRoundR_le_floor_add_one (x : ℝ) : pyRoundR x ≤ ⌊x⌋ + 1 := by
  unfold pyRoundR; split_ifs <;> omega

lemma pyRoundR_mono {x y : ℝ} (h : x ≤ y) : pyRoundR x ≤ pyRoundR y := by
  rcases eq_or_lt_of_le (Int.floor_le_floor h) with hf | hf
  · have hxy : x - (⌊x⌋ : ℝ) ≤ y - (⌊y⌋ : ℝ) := by
      rw [← hf]; linarith
    unfold pyRoundR
    rw [← hf]
    split_ifs <;> first | omega | (exfalso; push_neg at *; linarith)
  · calc pyRoundR x ≤ ⌊x⌋ + 1 := pyRoundR_le_floor_add_one x
    _ ≤ ⌊y⌋ := by omega
    _ ≤ pyRoundR y := floor_le_pyRoundR y

lemma hypotR_mul (c e d : ℝ) :
    hypotR (c * d) (e * d) = |d| * Real.sqrt (c ^ 2 + e ^ 2) := by
  unfold hypotR
  rw [show (c * d) ^ 2 + (e * d) ^ 2 = d ^ 2 * (c ^ 2 + e ^ 2) from by ring,
    Real.sqrt_mul (sq_nonneg d), Real.sqrt_sq_eq_abs]

lemma patchSizeGeom_affine (f : ℝ → ℝ → ℝ × ℝ) (a11 a12 a21 a22 b1 b2 : ℝ)
    (hf : IsAffineProjector f a11 a12 a21 a22 b1 b2) (m : ℤ) (ra dec a : ℝ)
    (ha : 0 ≤ a) :
    patchSizeGeom f m ra dec a =
      (max m (pyRoundR (a / 60 *
          (Real.sqrt (a12 ^ 2 + a22 ^ 2) + Real.sqrt (a11 ^ 2 + a21 ^ 2)))),
        a / 120 *
          (Real.sqrt (a12 ^ 2 + a22 ^ 2) + Real.sqrt (a11 ^ 2 + a21 ^ 2))) := by
  have h60 : (0:ℝ) ≤ a / 60 := by positivity
  rw [IsAffineProjector] at hf
  simp only [patchSizeGeom, hf]
  rw [show a11 * ra + a12 * (dec + a / 2 / 60) + b1
      - (a11 * ra + a12 * (dec - a / 2 / 60) + b1) = a12 * (a / 60) from by ring,
    show a21 * ra + a22 * (dec + a / 2 / 60) + b2
      - (a21 * ra + a22 * (dec - a / 2 / 60) + b2) = a22 * (a / 60) from by ring,
    show a11 * (ra + a / 2 / 60) + a12 * dec + b1
      - (a11 * (ra - a / 2 / 60) + a12 * dec + b1) = a11 * (a / 60) from by ring,
    show a21 * (ra + a / 2 / 60) + a22 * dec + b2
      - (a21 * (ra - a / 2 / 60) + a22 * dec + b2) = a21 * (a / 60) from by ring,
    hypotR_mul, hypotR_mul, abs_of_nonneg h60]
  refine Prod.ext ?_ ?_
  · show _ ⊔ _ = _ ⊔ _
    congr 2
    ring
  · show _ = _
    ring

/-- C5: for a projector with fixed pixel scale (an affine sky-to-pixel map)
and two angular sizes `0 < a1 ≤ a2` at the same sky position, the patch size
computed before edge-clipping for `a2` is never smaller than the one for
`a1`. -/
theorem patch_size_monotone (f : ℝ → ℝ → ℝ × ℝ) (a11 a12 a21 a22 b1 b2 : ℝ)
    (hf : IsAffineProjector f a11 a12 a21 a22 b1 b2) (m : ℤ)
    (ra dec a1 a2 : ℝ) (h1 : 0 < a1) (h12 : a1 ≤ a2) :
    (patchSizeGeom f m ra dec a1).1 ≤ (patchSizeGeom f m ra dec a2).1 := by
  rw [patchSizeGeom_affine f a11 a12 a21 a22 b1 b2 hf m ra dec a1 h1.le,
    patchSizeGeom_affine f a11 a12 a21 a22 b1 b2 hf m ra dec a2 (h1.le.trans h12)]
  refine max_le_max le_rfl (pyRoundR_mono ?_)
  have hS : 0 ≤ Real.sqrt (a12 ^ 2 + a22 ^ 2) + Real.sqrt (a11 ^ 2 + a21 ^ 2) := by
    positivity
  have h60 : a1 / 60 ≤ a2 / 60 := by linarith
  exact mul_le_mul_of_nonneg_right h60 hS

theorem patch_size_monotone_witness :
    (0 : ℝ) < 2 ∧ (2 : ℝ) ≤ 4 ∧
    (patchSizeGeom (fun ra dec => (30 * ra + 0 * dec + 0, 0 * ra + 30 * dec + 0))
        10 0 0 2).1
      ≤ (patchSizeGeom (fun ra dec => (30 * ra + 0 * dec + 0, 0 * ra + 30 * dec + 0))
        10 0 0 4).1 :=
  ⟨by norm_num, by norm_num,
    patch_size_monotone _ 30 0 0 30 0 0 (fun _ _ => rfl) 10 0 0 2 4
      (by norm_num) (by norm_num)⟩

/-- C6: for `n ≥ 1` surviving rows, the grid has
`ncols = max(mincols, floor(sqrt(n)))` with `mincols` 6 when a logo path is
supplied and 5 otherwise (characterized by the floor-sqrt bounds), and
`nrows = ceil(n / ncols)` (characterized by `n ≤ nrows * ncols < n + ncols`). -/
theorem grid_layout (n : ℕ) (logo_path : String) (_h : 1 ≤ n) :
    grid_mincols logo_path ≤ grid_ncols n logo_path ∧
    Nat.sqrt n ≤ grid_ncols n logo_path ∧
    (grid_ncols n logo_path = grid_mincols logo_path ∨
      grid_ncols n logo_path = Nat.sqrt n) ∧
    Nat.sqrt n * Nat.sqrt n ≤ n ∧
    n < (Nat.sqrt n + 1) * (Nat.sqrt n + 1) ∧
    (n : ℤ) ≤ grid_nrows n logo_path * grid_ncols n logo_path ∧
    grid_nrows n logo_path * grid_ncols n logo_path
      < (n : ℤ) + grid_ncols n logo_path := by
  have hc5 : 5 ≤ grid_mincols logo_path := by
    unfold grid_mincols; split_ifs <;> omega
  have hcpos : 0 < grid_ncols n logo_path :=
    lt_of_lt_of_le (by omega) (le_max_left _ _)
  have hcQ : (0 : ℚ) < (grid_ncols n logo_path : ℚ) := by exact_mod_cast hcpos
  refine ⟨le_max_left _ _, le_max_right _ _, max_choice _ _,
    Nat.sqrt_le n, ?_, ?_, ?_⟩
  · simpa [Nat.succ_eq_add_one] using Nat.lt_succ_sqrt n
  · have hle := Int.le_ceil ((n : ℚ) / (grid_ncols n logo_path : ℚ))
    have hmul := mul_le_mul_of_nonneg_right hle (le_of_lt hcQ)
    rw [div_mul_cancel₀ _ (ne_of_gt hcQ)] at hmul
    have : (n : ℚ) ≤ ((grid_nrows n logo_path * grid_ncols n logo_path : ℤ) : ℚ) := by
      push_cast
      exact hmul
    exact_mod_cast this
  · have hlt := Int.ceil_lt_add_one ((n : ℚ) / (grid_ncols n logo_path : ℚ))
    have hmul := mul_lt_mul_of_pos_right hlt hcQ
    rw [add_mul, one_mul, div_mul_cancel₀ _ (ne_of_gt hcQ)] at hmul
    have : ((grid_nrows n logo_path * grid_ncols n logo_path : ℤ) : ℚ)
        < (n : ℚ) + (grid_ncols n logo_path : ℚ) := by
      push_cast
      exact hmul
    exact_mod_cast this

theorem grid_layout_witness :
    (1 : ℕ) ≤ 13 ∧ grid_ncols 13 "" = 5 ∧ grid_nrows 13 "" = 3 ∧
    (13 : ℤ) ≤ grid_nrows 13 "" * grid_ncols 13 "" :=
  ⟨by norm_num, by norm_num [grid_ncols, grid_mincols],
    by rw [show grid_nrows 13 "" = ⌈(13 : ℚ) / ((grid_ncols 13 "" : ℕ) : ℚ)⌉ from rfl,
      show grid_ncols 13 "" = 5 from by norm_num [grid_ncols, grid_mincols]]
       rw [Int.ceil_eq_iff]
       constructor <;> norm_num,
    (grid_layout 13 "" (by norm_num)).2.2.2.2.2.1⟩

/-- C7 counterexample: a projector reporting sky positions (0, 0) for pixel
(0, 0) and (0.003, 0.004) for pixel (1, 1). The angular distance between
the two positions is 0.005 degrees = 0.3 arcmin, so the claim's threshold
would be 1.5 arcmin; the code's componentwise-max estimate gives
0.004 degrees = 0.24 arcmin and threshold 1.2 arcmin. -/
theorem minsize_arcmin_counterexample :
    minsize_arcmin 0 0 (3/1000) (4/1000) = 6/5 ∧
    specMinsizeArcmin 0 0 (3/1000) (4/1000) = 3/2 ∧
    minsize_arcmin 0 0 (3/1000) (4/1000)
      ≠ specMinsizeArcmin 0 0 (3/1000) (4/1000) := by
  have h1 : minsize_arcmin 0 0 (3/1000) (4/1000) = 6/5 := by
    unfold minsize_arcmin minsize_pixels
    rw [show |(3 : ℝ)/1000 - 0| = 3/1000 from by rw [abs_of_nonneg] <;> norm_num,
      show |(4 : ℝ)/1000 - 0| = 4/1000 from by rw [abs_of_nonneg] <;> norm_num,
      max_eq_right (by norm_num : (3 : ℝ)/1000 ≤ 4/1000)]
    norm_num
  have h2 : specMinsizeArcmin 0 0 (3/1000) (4/1000) = 3/2 := by
    unfold specMinsizeArcmin minsize_pixels
    rw [show ((3 : ℝ)/1000 - 0) ^ 2 + ((4 : ℝ)/1000 - 0) ^ 2 = (5/1000) ^ 2
        from by norm_num,
      Real.sqrt_sq (by norm_num : (0 : ℝ) ≤ 5/1000)]
    norm_num
  exact ⟨h1, h2, by rw [h1, h2]; norm_num⟩

/-- C7 (amended): the threshold is `5 × 60 × max(|Δra|, |Δdec|)` — five times
the larger coordinatewise difference between the sky positions reported for
pixels (0,0) and (1,1), in arcmin — which is not the angular distance of the
two positions but underestimates that reading by at most a factor of √2. -/
theorem minsize_arcmin_amended (TL_ra TL_dec p_ra p_dec : ℝ) :
    minsize_arcmin TL_ra TL_dec p_ra p_dec
      = 5 * (60 * max |p_ra - TL_ra| |p_dec - TL_dec|) ∧
    minsize_arcmin TL_ra TL_dec p_ra p_dec
      ≤ specMinsizeArcmin TL_ra TL_dec p_ra p_dec ∧
    specMinsizeArcmin TL_ra TL_dec p_ra p_dec
      ≤ Real.sqrt 2 * minsize_arcmin TL_ra TL_dec p_ra p_dec := by
  set dx := p_ra - TL_ra
  set dy := p_dec - TL_dec
  have hmax0 : 0 ≤ max |dx| |dy| := le_max_of_le_left (abs_nonneg dx)
  have hmax_le : max |dx| |dy| ≤ Real.sqrt (dx ^ 2 + dy ^ 2) := by
    refine max_le ?_ ?_
    · rw [← Real.sqrt_sq_eq_abs]
      exact Real.sqrt_le_sqrt (le_add_of_nonneg_right (sq_nonneg dy))
    · rw [← Real.sqrt_sq_eq_abs]
      exact Real.sqrt_le_sqrt (le_add_of_nonneg_left (sq_nonneg dx))
  have hle_max : Real.sqrt (dx ^ 2 + dy ^ 2)
      ≤ Real.sqrt 2 * max |dx| |dy| := by
    have hsum : dx ^ 2 + dy ^ 2 ≤ 2 * (max |dx| |dy|) ^ 2 := by
      have h1 : dx ^ 2 ≤ (max |dx| |dy|) ^ 2 := by
        rw [← sq_abs dx]
        exact pow_le_pow_left₀ (abs_nonneg dx) (le_max_left _ _) 2
      have h2 : dy ^ 2 ≤ (max |dx| |dy|) ^ 2 := by
        rw [← sq_abs dy]
        exact pow_le_pow_left₀ (abs_nonneg dy) (le_max_right _ _) 2
      linarith
    calc Real.sqrt (dx ^ 2 + dy ^ 2)
        ≤ Real.sqrt (2 * (max |dx| |dy|) ^ 2) := Real.sqrt_le_sqrt hsum
      _ = Real.sqrt 2 * max |dx| |dy| := by
          rw [Real.sqrt_mul (by norm_num), Real.sqrt_sq hmax0]
  refine ⟨by unfold minsize_arcmin minsize_pixels; norm_num, ?_, ?_⟩
  · unfold minsize_arcmin specMinsizeArcmin minsize_pixels
    have : (60 : ℝ) * max |dx| |dy| ≤ 60 * Real.sqrt (dx ^ 2 + dy ^ 2) := by
      linarith
    push_cast
    linarith
  · unfold minsize_arcmin specMinsizeArcmin minsize_pixels
    push_cast
    nlinarith [Real.sqrt_nonneg (2 : ℝ), hle_max, hmax0]

/-- C8 (code bug): with a four-line config file the source returns the third
line, not the fourth, as the serialized catalog selection; line 1075 reads
lines[2] (the overlay type) while save_config_file (line 1090) writes the
selection as line 4. -/
theorem load_config_reads_wrong_line :
    (load_config_file (fun _ => true) (fun _ => 3/5)
        (some ["logo.png", "0.60", "boxes", "M,NGC,IC"])).selected_catalogs
      = some "boxes" ∧
    ("boxes" : String) ≠ "M,NGC,IC" ∧
    (load_config_file (fun _ => true) (fun _ => 3/5)
        (some ["logo.png", "0.60", "boxes", "M,NGC,IC"])).overlay_type
      = "boxes" := by
  refine ⟨by decide, by decide, by decide⟩

/-- C9: when no catalog source yields data (`df_list` empty) or no rows
survive the projection/bounds/type/deduplication filtering, annotate_fit
returns count 0 and writes no output files; the outcome is a normal return
value of the (total) pipeline function, not an error. -/
theorem empty_result_returns_zero
    (f : ℚ → ℚ → Except String (PyFloat × PyFloat)) (W H : ℕ)
    (filter_types : List String) (df_list : List (List Row))
    (h : df_list = [] ∨ surviving_rows f W H filter_types df_list = []) :
    annotate_fit f W H filter_types df_list = (0, []) := by
  rcases h with h | h
  · simp [annotate_fit, h]
  · by_cases hd : df_list = []
    · simp [annotate_fit, hd]
    · simp [annotate_fit, hd, h]

theorem empty_result_returns_zero_witness :
    (([] : List (List Row)) = [] ∨
      surviving_rows (fun _ _ => .ok (.fin 0, .fin 0)) 100 100 ["M"] [] = []) ∧
    annotate_fit (fun _ _ => .ok (.fin 0, .fin 0)) 100 100 ["M"] [] = (0, []) :=
  ⟨Or.inl rfl,
    empty_result_returns_zero (fun _ _ => .ok (.fin 0, .fin 0)) 100 100 ["M"] []
      (Or.inl rfl)⟩

/-- C10: with no GUI constructed every registry entry has
`checkbox_var = None`, so `get_selected` returns `selection_default`, and
the enabled catalogs are exactly those registered with a true default:
M, IC and NGC. -/
theorem cli_default_selection :
    (init_catalogs.filter (fun p => p.2.get_selected)).map Prod.fst
      = ["M", "IC", "NGC"] ∧
    (∀ p ∈ init_catalogs, p.2.get_selected = p.2.selection_default) ∧
    (init_catalogs.filter (fun p => p.2.selection_default)).map Prod.fst
      = ["M", "IC", "NGC"] := by
  decide

end GalaxyAnnotations
